import Mathlib

/-!
Shallow embedding of `src/app.py` (ict-dx/sd-card-manager): a single-table
SQLite inventory of SD cards with batch checkout, single-card return and
per-container list queries.  The `sdcards` table is modelled as a
`List Card` in rowid order; SQL `NULL` columns are `Option`; the
`datetime.now()` timestamp is passed in explicitly as a `Nat` parameter.
SQLite exceptions (the only one reachable in this code is the syntax error
produced by an empty `IN ()` list when `card_ids` is empty) are modelled by
an `Except String` transaction body, and the Python `try/except` wrapper by
a `match` which rolls back (returns the input state) and produces the
generic failure message.
-/

namespace SDCard

/-- One row of the `sdcards` table (`init_db`, src/app.py lines 21-33). -/
structure Card where
  id : Nat
  card_number : String
  card_index : Nat
  status : String
  capacity : String
  checkout_date : Option Nat
  user_name : Option String
  equipment : Option String
  case_number : String
  shoot_content : Option String
deriving DecidableEq, Repr

/-- The status string for an in-stock card (`'在庫あり'`). -/
def statusAvailable : String := "在庫あり"

/-- The status string for a checked-out card (`'貸出中'`). -/
def statusCheckedOut : String := "貸出中"

/-- Capacity band for container SD1, from the `if/elif` chain in
`insert_initial_data` (lines 49-55); appends nothing outside 1..40,
modelled with `Option`. -/
def sd1Capacity (num : Nat) : Option String :=
  if 1 ≤ num ∧ num ≤ 11 then some "32G"
  else if 12 ≤ num ∧ num ≤ 18 then some "64G"
  else if 19 ≤ num ∧ num ≤ 40 then some "128G"
  else none

/-- An initial row as inserted by `insert_initial_data`: status `'在庫あり'`,
all checkout-scoped columns NULL; `id` is the SQLite rowid assigned in
insertion order. -/
def seedRow (id : Nat) (card_number : String) (card_index : Nat)
    (capacity : String) (case_number : String) : Card :=
  { id := id, card_number := card_number, card_index := card_index,
    status := statusAvailable, capacity := capacity,
    checkout_date := none, user_name := none, equipment := none,
    case_number := case_number, shoot_content := none }

/-- The 40 rows inserted for container `'SDカード1'` (lines 46-62):
`card_numbers = list(range(1, 41))`, capacities built by the band chain and
zipped back against the numbers. Rowids 1..40. -/
def sd1Rows : List Card :=
  ((List.range' 1 40).zip ((List.range' 1 40).filterMap sd1Capacity)).map
    (fun p => seedRow p.1 ("SD1-" ++ toString p.1) p.1 p.2 "SDカード1")

/-- The 40 rows inserted for container `'SDカード2'` (lines 64-70), all 64G.
Rowids 41..80. -/
def sd2Rows : List Card :=
  (List.range' 1 40).map
    (fun num => seedRow (40 + num) ("SD2-" ++ toString num) num "64G" "SDカード2")

/-- The 40 rows inserted for container `'マイクロSDカード'` (lines 72-78),
all 32G. Rowids 81..120. -/
def microSDRows : List Card :=
  (List.range' 1 40).map
    (fun num => seedRow (80 + num) ("microSD-" ++ toString num) num "32G" "マイクロSDカード")

/-- `insert_initial_data` (lines 39-81): inserts the three fixed blocks of
rows only when `SELECT COUNT(*) FROM sdcards` is 0, otherwise leaves the
table untouched. -/
def insert_initial_data (s : List Card) : List Card :=
  if s.length = 0 then sd1Rows ++ sd2Rows ++ microSDRows else s

/-! ### Read queries -/

/-- Comparison used by `ORDER BY card_index`. -/
def byIndex (a b : Card) : Bool := a.card_index ≤ b.card_index

/-- Row shape of `get_available_cards_by_case`: `SELECT id, card_number,
capacity`. -/
structure AvailRow where
  id : Nat
  card_number : String
  capacity : String
deriving DecidableEq, Repr

/-- `get_available_cards_by_case` (lines 92-99): rows of the given case with
status `'在庫あり'`, ordered by `card_index`, projected to
(id, card_number, capacity). -/
def get_available_cards_by_case (s : List Card) (case_number : String) :
    List AvailRow :=
  ((s.filter (fun c => c.case_number = case_number ∧ c.status = statusAvailable)).mergeSort
      byIndex).map
    (fun c => { id := c.id, card_number := c.card_number, capacity := c.capacity })

/-- Row shape of `get_checked_out_cards_by_case`: `SELECT id, card_number,
capacity, user_name, equipment, shoot_content, checkout_date`. -/
structure CheckedOutRow where
  id : Nat
  card_number : String
  capacity : String
  user_name : Option String
  equipment : Option String
  shoot_content : Option String
  checkout_date : Option Nat
deriving DecidableEq, Repr

/-- `get_checked_out_cards_by_case` (lines 101-108): rows of the given case
with status `'貸出中'`, ordered by `card_index`, with checkout metadata. -/
def get_checked_out_cards_by_case (s : List Card) (case_number : String) :
    List CheckedOutRow :=
  ((s.filter (fun c => c.case_number = case_number ∧ c.status = statusCheckedOut)).mergeSort
      byIndex).map
    (fun c => { id := c.id, card_number := c.card_number, capacity := c.capacity,
                user_name := c.user_name, equipment := c.equipment,
                shoot_content := c.shoot_content, checkout_date := c.checkout_date })

/-- Row shape of `get_cards_by_case`: `SELECT card_number, status, capacity,
checkout_date, user_name, equipment, case_number, shoot_content`. -/
structure AllRow where
  card_number : String
  status : String
  capacity : String
  checkout_date : Option Nat
  user_name : Option String
  equipment : Option String
  case_number : String
  shoot_content : Option String
deriving DecidableEq, Repr

/-- `get_cards_by_case` (lines 168-175): every row of the given case,
ordered by `card_index`. -/
def get_cards_by_case (s : List Card) (case_number : String) : List AllRow :=
  ((s.filter (fun c => c.case_number = case_number)).mergeSort byIndex).map
    (fun c => { card_number := c.card_number, status := c.status,
                capacity := c.capacity, checkout_date := c.checkout_date,
                user_name := c.user_name, equipment := c.equipment,
                case_number := c.case_number, shoot_content := c.shoot_content })

/-! ### Mutating operations -/

/-- The SQLite error message raised by `SELECT ... WHERE id IN ()` when the
placeholder list built from an empty `card_ids` is empty (line 115-116). -/
def emptyInListError : String := "near \")\": syntax error"

/-- The rows returned by `SELECT id, status FROM sdcards WHERE id IN (...)`
(line 116): for each table row whose id is in the batch, its (id, status),
in table order. -/
def selectRows (s : List Card) (card_ids : List Nat) : List (Nat × String) :=
  (s.filter (fun c => card_ids.contains c.id)).map (fun c => (c.id, c.status))

/-- The `SELECT id, status FROM sdcards WHERE id IN (...)` of
`checkout_cards` (lines 115-117).  An empty `card_ids` produces a malformed
query (`IN ()`) and raises; otherwise the matching rows are returned. -/
def selectStatuses (s : List Card) (card_ids : List Nat) :
    Except String (List (Nat × String)) :=
  if card_ids.isEmpty then .error emptyInListError
  else .ok (selectRows s card_ids)

/-- Line 119: `[str(id) for id, status in statuses if status != '在庫あり']`. -/
def unavailable_cards (statuses : List (Nat × String)) : List String :=
  (statuses.filter (fun p => p.2 ≠ statusAvailable)).map (fun p => toString p.1)

/-- The column assignments of the checkout `UPDATE` (lines 126-131):
status `'貸出中'`, the four checkout-scoped columns stamped. -/
def checkoutStamp (now : Nat) (user_name equipment shoot_content : String)
    (c : Card) : Card :=
  { c with status := statusCheckedOut, checkout_date := some now,
           user_name := some user_name, equipment := some equipment,
           shoot_content := some shoot_content }

/-- The `UPDATE` of `checkout_cards` for one id (lines 124-133). -/
def checkoutUpdate (now : Nat) (user_name equipment shoot_content : String)
    (card_id : Nat) (s : List Card) : List Card :=
  s.map (fun c =>
    if c.id = card_id then checkoutStamp now user_name equipment shoot_content c
    else c)

/-- Transaction body of `checkout_cards` (lines 113-136): select statuses of
the requested ids, reject when any returned row is not `'在庫あり'`
(rolling back, i.e. returning the unchanged state), else update every id in
the batch and commit. -/
def checkoutBody (s : List Card) (card_ids : List Nat) (now : Nat)
    (user_name equipment shoot_content : String) :
    Except String (List Card × Bool × String) :=
  match selectStatuses s card_ids with
  | .error e => .error e
  | .ok statuses =>
    let unav := unavailable_cards statuses
    if unav ≠ [] then
      .ok (s, false, "以下のカードは現在貸出できません: " ++ String.intercalate ", " unav)
    else
      .ok (card_ids.foldl
            (fun acc id => checkoutUpdate now user_name equipment shoot_content id acc) s,
           true, "貸出が完了しました")

/-- `checkout_cards` (lines 110-139): the transaction body wrapped in the
`try/except` which rolls back and converts any exception into a
`(False, generic message)` result. -/
def checkout_cards (s : List Card) (card_ids : List Nat) (now : Nat)
    (user_name equipment shoot_content : String) : List Card × Bool × String :=
  match checkoutBody s card_ids now user_name equipment shoot_content with
  | .ok r => r
  | .error e => (s, false, "エラーが発生しました: " ++ e)

/-- The column assignments of the return `UPDATE` (lines 153-158): status
back to `'在庫あり'`, all four checkout-scoped columns NULL. -/
def returnClear (c : Card) : Card :=
  { c with status := statusAvailable, checkout_date := none,
           user_name := none, equipment := none, shoot_content := none }

/-- The `UPDATE` of `return_card` (lines 152-160). -/
def returnUpdate (card_id : Nat) (s : List Card) : List Card :=
  s.map (fun c => if c.id = card_id then returnClear c else c)

/-- Transaction body of `return_card` (lines 144-163): fetch the status of
the row with the given id; when there is no row or its status is not
`'貸出中'`, roll back and fail; else clear the checkout fields and commit. -/
def returnBody (s : List Card) (card_id : Nat) :
    Except String (List Card × Bool × String) :=
  match (s.find? (fun c => c.id = card_id)).map Card.status with
  | none => .ok (s, false, "このカードは返却できません")
  | some st =>
    if st ≠ statusCheckedOut then
      .ok (s, false, "このカードは返却できません")
    else
      .ok (returnUpdate card_id s, true, "返却が完了しました")

/-- `return_card` (lines 141-166): the transaction body wrapped in the same
`try/except` shape as `checkout_cards`. -/
def return_card (s : List Card) (card_id : Nat) : List Card × Bool × String :=
  match returnBody s card_id with
  | .ok r => r
  | .error e => (s, false, "エラーが発生しました: " ++ e)

/-- Store states reachable from the freshly seeded database by the two
mutating operations of `SDCardApp`. -/
inductive Reachable : List Card → Prop where
  | seeded : Reachable (insert_initial_data [])
  | checkout (s : List Card) (card_ids : List Nat) (now : Nat)
      (user_name equipment shoot_content : String) : Reachable s →
      Reachable (checkout_cards s card_ids now user_name equipment shoot_content).1
  | ret (s : List Card) (card_id : Nat) : Reachable s →
      Reachable (return_card s card_id).1

/-! ### Branch lemmas for the two mutating operations -/

/-- An empty batch makes the `IN ()` query raise; the `except` arm rolls
back and returns the generic error message. -/
theorem checkout_cards_nil (s : List Card) (now : Nat) (u e n : String) :
    checkout_cards s [] now u e n =
      (s, false, "エラーが発生しました: " ++ emptyInListError) := rfl

/-- When some returned row is not `'在庫あり'`, checkout rolls back and
reports the unavailable ids. -/
theorem checkout_cards_unavail (s : List Card) (ids : List Nat) (now : Nat)
    (u e n : String) (hne : ids ≠ [])
    (hu : unavailable_cards (selectRows s ids) ≠ []) :
    checkout_cards s ids now u e n =
      (s, false, "以下のカードは現在貸出できません: " ++
        String.intercalate ", " (unavailable_cards (selectRows s ids))) := by
  simp [checkout_cards, checkoutBody, selectStatuses, List.isEmpty_iff, hne, hu]

/-- When every returned row is `'在庫あり'` (and the batch is nonempty), checkout
updates every id of the batch and commits. -/
theorem checkout_cards_ok (s : List Card) (ids : List Nat) (now : Nat)
    (u e n : String) (hne : ids ≠ [])
    (hu : unavailable_cards (selectRows s ids) = []) :
    checkout_cards s ids now u e n =
      (ids.foldl (fun acc i => checkoutUpdate now u e n i acc) s, true,
       "貸出が完了しました") := by
  simp [checkout_cards, checkoutBody, selectStatuses, List.isEmpty_iff, hne, hu]

/-- When no row with the id exists, or its status is not `'貸出中'`, return
rolls back and fails. -/
theorem return_card_fail (s : List Card) (card_id : Nat)
    (h : ∀ c ∈ s, c.id = card_id → c.status ≠ statusCheckedOut) :
    return_card s card_id = (s, false, "このカードは返却できません") := by
  rcases hfind : s.find? (fun c => c.id = card_id) with _ | c
  · simp [return_card, returnBody, hfind]
  · have hmem := List.mem_of_find?_eq_some hfind
    have hid : c.id = card_id := by
      have := List.find?_some hfind
      simpa using this
    have hst := h c hmem hid
    simp [return_card, returnBody, hfind, hst]

/-- When the row exists with status `'貸出中'`, return clears the checkout
fields and commits. -/
theorem return_card_ok (s : List Card) (card_id : Nat) (c : Card)
    (hfind : s.find? (fun c => c.id = card_id) = some c)
    (hst : c.status = statusCheckedOut) :
    return_card s card_id = (returnUpdate card_id s, true, "返却が完了しました") := by
  simp [return_card, returnBody, hfind, hst]

/-- The state after `checkout_cards` is either unchanged (rollback) or the
batch-updated table. -/
theorem checkout_cards_fst_cases (s : List Card) (ids : List Nat) (now : Nat)
    (u e n : String) :
    (checkout_cards s ids now u e n).1 = s ∨
    (checkout_cards s ids now u e n).1 =
      ids.foldl (fun acc i => checkoutUpdate now u e n i acc) s := by
  by_cases hne : ids = []
  · subst hne; left; rw [checkout_cards_nil]
  · by_cases hu : unavailable_cards (selectRows s ids) = []
    · right; rw [checkout_cards_ok s ids now u e n hne hu]
    · left; rw [checkout_cards_unavail s ids now u e n hne hu]

/-- The state after `return_card` is either unchanged (rollback) or the
cleared table. -/
theorem return_card_fst_cases (s : List Card) (card_id : Nat) :
    (return_card s card_id).1 = s ∨
    (return_card s card_id).1 = returnUpdate card_id s := by
  rcases hfind : s.find? (fun c => c.id = card_id) with _ | c
  · left; simp [return_card, returnBody, hfind]
  · by_cases hst : c.status = statusCheckedOut
    · right; rw [return_card_ok s card_id c hfind hst]
    · left; simp [return_card, returnBody, hfind, hst]

/-! ### Invariants of reachable store states -/

/-- Every card is either in stock or checked out. -/
def StatusOK (s : List Card) : Prop :=
  ∀ c ∈ s, c.status = statusAvailable ∨ c.status = statusCheckedOut

/-- A card's checkout-scoped columns are all non-NULL iff it is checked
out. -/
def FieldsOK (s : List Card) : Prop :=
  ∀ c ∈ s, (c.checkout_date ≠ none ∧ c.user_name ≠ none ∧
    c.equipment ≠ none ∧ c.shoot_content ≠ none) ↔ c.status = statusCheckedOut

/-- Card labels (`card_number`, declared UNIQUE) are pairwise distinct. -/
def NamesNodup (s : List Card) : Prop := (s.map Card.card_number).Nodup

/-- Row ids (PRIMARY KEY) are pairwise distinct. -/
def IdsNodup (s : List Card) : Prop := (s.map Card.id).Nodup

/-- Every seeded row is in stock with all checkout-scoped columns NULL. -/
theorem seed_mem (c : Card) (h : c ∈ insert_initial_data []) :
    c.status = statusAvailable ∧ c.checkout_date = none ∧ c.user_name = none ∧
    c.equipment = none ∧ c.shoot_content = none := by
  rw [show insert_initial_data [] = sd1Rows ++ sd2Rows ++ microSDRows from rfl,
    List.mem_append, List.mem_append] at h
  rcases h with (h | h) | h
  · rw [sd1Rows, List.mem_map] at h
    obtain ⟨p, _, rfl⟩ := h
    simp [seedRow]
  · rw [sd2Rows, List.mem_map] at h
    obtain ⟨p, _, rfl⟩ := h
    simp [seedRow]
  · rw [microSDRows, List.mem_map] at h
    obtain ⟨p, _, rfl⟩ := h
    simp [seedRow]

/-- Members of `checkoutUpdate` come from the old table, either untouched or
stamped with the checkout fields. -/
theorem mem_checkoutUpdate (now : Nat) (u e n : String) (i : Nat) (s : List Card)
    (c' : Card) (h : c' ∈ checkoutUpdate now u e n i s) :
    ∃ c ∈ s, c' = c ∨ c' = checkoutStamp now u e n c := by
  simp only [checkoutUpdate, List.mem_map] at h
  obtain ⟨c, hc, hceq⟩ := h
  refine ⟨c, hc, ?_⟩
  by_cases hid : c.id = i
  · right; rw [← hceq]; simp [hid]
  · left; rw [← hceq]; simp [hid]

/-- Members of the batch `foldl` of checkout updates come from the old
table, untouched or stamped. -/
theorem mem_checkout_foldl (ids : List Nat) (now : Nat) (u e n : String)
    (s : List Card) (c' : Card)
    (h : c' ∈ ids.foldl (fun acc i => checkoutUpdate now u e n i acc) s) :
    ∃ c ∈ s, c' = c ∨ c' = checkoutStamp now u e n c := by
  induction ids generalizing s with
  | nil => exact ⟨c', h, Or.inl rfl⟩
  | cons i ids ih =>
    simp only [List.foldl_cons] at h
    obtain ⟨c1, hc1, hc1eq⟩ := ih (checkoutUpdate now u e n i s) h
    obtain ⟨c, hc, hceq⟩ := mem_checkoutUpdate now u e n i s c1 hc1
    refine ⟨c, hc, ?_⟩
    rcases hceq with rfl | rfl
    · exact hc1eq
    · rcases hc1eq with rfl | rfl
      · exact Or.inr rfl
      · exact Or.inr rfl

/-- A row whose id is outside the batch is untouched by the batch
`foldl`. -/
theorem mem_checkout_foldl_untouched (ids : List Nat) (now : Nat)
    (u e n : String) (s : List Card) (c : Card) (hc : c ∈ s)
    (hni : c.id ∉ ids) :
    c ∈ ids.foldl (fun acc i => checkoutUpdate now u e n i acc) s := by
  induction ids generalizing s with
  | nil => exact hc
  | cons i t ih =>
    rw [List.foldl_cons]
    refine ih (checkoutUpdate now u e n i s) ?_
      (fun h => hni (List.mem_cons_of_mem i h))
    rw [checkoutUpdate]
    refine List.mem_map.mpr ⟨c, hc, if_neg ?_⟩
    intro h
    exact hni (h ▸ List.mem_cons_self i t)

/-- Members of `returnUpdate` come from the old table, untouched or
cleared. -/
theorem mem_returnUpdate (i : Nat) (s : List Card) (c' : Card)
    (h : c' ∈ returnUpdate i s) :
    ∃ c ∈ s, c' = c ∨ c' = returnClear c := by
  simp only [returnUpdate, List.mem_map] at h
  obtain ⟨c, hc, hceq⟩ := h
  refine ⟨c, hc, ?_⟩
  by_cases hid : c.id = i
  · right; rw [← hceq]; simp [hid]
  · left; rw [← hceq]; simp [hid]

/-- A projection unchanged by the checkout stamp is unchanged by
`checkoutUpdate`. -/
theorem map_checkoutUpdate {α : Type} (f : Card → α) (now : Nat) (u e n : String)
    (hf : ∀ c, f (checkoutStamp now u e n c) = f c) (i : Nat) (s : List Card) :
    (checkoutUpdate now u e n i s).map f = s.map f := by
  rw [checkoutUpdate, List.map_map]
  refine List.map_congr_left (fun c _ => ?_)
  by_cases hid : c.id = i <;> simp [hid, hf]

/-- A projection unchanged by the checkout stamp is unchanged by the batch
`foldl`. -/
theorem map_checkout_foldl {α : Type} (f : Card → α) (now : Nat) (u e n : String)
    (hf : ∀ c, f (checkoutStamp now u e n c) = f c) (ids : List Nat) (s : List Card) :
    (ids.foldl (fun acc i => checkoutUpdate now u e n i acc) s).map f = s.map f := by
  induction ids generalizing s with
  | nil => rfl
  | cons i ids ih =>
    rw [List.foldl_cons, ih (checkoutUpdate now u e n i s),
      map_checkoutUpdate f now u e n hf i s]

/-- A projection unchanged by the checkout stamp is unchanged by
`checkout_cards`. -/
theorem map_checkout_fst {α : Type} (f : Card → α) (now : Nat) (u e n : String)
    (hf : ∀ c, f (checkoutStamp now u e n c) = f c) (ids : List Nat) (s : List Card) :
    ((checkout_cards s ids now u e n).1).map f = s.map f := by
  rcases checkout_cards_fst_cases s ids now u e n with heq | heq <;> rw [heq]
  exact map_checkout_foldl f now u e n hf ids s

/-- A projection unchanged by the return clear is unchanged by
`return_card`. -/
theorem map_return_fst {α : Type} (f : Card → α)
    (hf : ∀ c, f (returnClear c) = f c) (i : Nat) (s : List Card) :
    ((return_card s i).1).map f = s.map f := by
  rcases return_card_fst_cases s i with heq | heq <;> rw [heq]
  rw [returnUpdate, List.map_map]
  refine List.map_congr_left (fun c _ => ?_)
  by_cases hid : c.id = i <;> simp [hid, hf]

/-- `checkout_cards` preserves the status enumeration. -/
theorem statusOK_checkout (s : List Card) (ids : List Nat) (now : Nat)
    (u e n : String) (h : StatusOK s) :
    StatusOK (checkout_cards s ids now u e n).1 := by
  rcases checkout_cards_fst_cases s ids now u e n with heq | heq <;> rw [heq]
  · exact h
  · intro c' hc'
    obtain ⟨c, hc, hceq⟩ := mem_checkout_foldl ids now u e n s c' hc'
    rcases hceq with rfl | rfl
    · exact h _ hc
    · exact Or.inr rfl

/-- `return_card` preserves the status enumeration. -/
theorem statusOK_return (s : List Card) (i : Nat) (h : StatusOK s) :
    StatusOK (return_card s i).1 := by
  rcases return_card_fst_cases s i with heq | heq <;> rw [heq]
  · exact h
  · intro c' hc'
    obtain ⟨c, hc, hceq⟩ := mem_returnUpdate i s c' hc'
    rcases hceq with rfl | rfl
    · exact h _ hc
    · exact Or.inl rfl

/-- `checkout_cards` preserves the fields-iff-status invariant. -/
theorem fieldsOK_checkout (s : List Card) (ids : List Nat) (now : Nat)
    (u e n : String) (h : FieldsOK s) :
    FieldsOK (checkout_cards s ids now u e n).1 := by
  rcases checkout_cards_fst_cases s ids now u e n with heq | heq <;> rw [heq]
  · exact h
  · intro c' hc'
    obtain ⟨c, hc, hceq⟩ := mem_checkout_foldl ids now u e n s c' hc'
    rcases hceq with rfl | rfl
    · exact h _ hc
    · simp [checkoutStamp]

/-- `return_card` preserves the fields-iff-status invariant. -/
theorem fieldsOK_return (s : List Card) (i : Nat) (h : FieldsOK s) :
    FieldsOK (return_card s i).1 := by
  rcases return_card_fst_cases s i with heq | heq <;> rw [heq]
  · exact h
  · intro c' hc'
    obtain ⟨c, hc, hceq⟩ := mem_returnUpdate i s c' hc'
    rcases hceq with rfl | rfl
    · exact h _ hc
    · simp [returnClear, statusAvailable, statusCheckedOut]

/-- Every reachable store state satisfies the four structural invariants:
binary status, checkout fields non-NULL iff checked out, distinct labels,
distinct ids. -/
theorem reachable_invariants (s : List Card) (hs : Reachable s) :
    StatusOK s ∧ FieldsOK s ∧ NamesNodup s ∧ IdsNodup s := by
  induction hs with
  | seeded =>
    refine ⟨?_, ?_, ?_, ?_⟩
    · intro c hc; exact Or.inl (seed_mem c hc).1
    · intro c hc
      obtain ⟨hst, h1, h2, h3, h4⟩ := seed_mem c hc
      rw [hst, h1, h2, h3, h4]
      simp [statusAvailable, statusCheckedOut]
    · show ((insert_initial_data []).map Card.card_number).Nodup
      decide
    · show ((insert_initial_data []).map Card.id).Nodup
      decide
  | checkout s ids now u e n hr ih =>
    obtain ⟨h1, h2, h3, h4⟩ := ih
    refine ⟨statusOK_checkout s ids now u e n h1,
      fieldsOK_checkout s ids now u e n h2, ?_, ?_⟩
    · show ((checkout_cards s ids now u e n).1.map Card.card_number).Nodup
      rw [map_checkout_fst Card.card_number now u e n (fun c => rfl) ids s]
      exact h3
    · show ((checkout_cards s ids now u e n).1.map Card.id).Nodup
      rw [map_checkout_fst Card.id now u e n (fun c => rfl) ids s]
      exact h4
  | ret s i hr ih =>
    obtain ⟨h1, h2, h3, h4⟩ := ih
    refine ⟨statusOK_return s i h1, fieldsOK_return s i h2, ?_, ?_⟩
    · show ((return_card s i).1.map Card.card_number).Nodup
      rw [map_return_fst Card.card_number (fun c => rfl) i s]
      exact h3
    · show ((return_card s i).1.map Card.id).Nodup
      rw [map_return_fst Card.id (fun c => rfl) i s]
      exact h4

/-! ### Membership characterizations of the list queries -/

/-- A label appears in the available listing iff some row of the case is in
stock with that label. -/
theorem mem_names_available (s : List Card) (case n : String) :
    n ∈ (get_available_cards_by_case s case).map AvailRow.card_number ↔
      ∃ c ∈ s, c.case_number = case ∧ c.status = statusAvailable ∧
        c.card_number = n := by
  simp only [get_available_cards_by_case, List.mem_map, List.mem_mergeSort,
    List.mem_filter, decide_eq_true_eq]
  constructor
  · rintro ⟨r, ⟨c, ⟨hc, hcase, hst⟩, rfl⟩, rfl⟩
    exact ⟨c, hc, hcase, hst, rfl⟩
  · rintro ⟨c, hc, hcase, hst, rfl⟩
    exact ⟨_, ⟨c, ⟨hc, hcase, hst⟩, rfl⟩, rfl⟩

/-- A label appears in the checked-out listing iff some row of the case is
checked out with that label. -/
theorem mem_names_checked_out (s : List Card) (case n : String) :
    n ∈ (get_checked_out_cards_by_case s case).map CheckedOutRow.card_number ↔
      ∃ c ∈ s, c.case_number = case ∧ c.status = statusCheckedOut ∧
        c.card_number = n := by
  simp only [get_checked_out_cards_by_case, List.mem_map, List.mem_mergeSort,
    List.mem_filter, decide_eq_true_eq]
  constructor
  · rintro ⟨r, ⟨c, ⟨hc, hcase, hst⟩, rfl⟩, rfl⟩
    exact ⟨c, hc, hcase, hst, rfl⟩
  · rintro ⟨c, hc, hcase, hst, rfl⟩
    exact ⟨_, ⟨c, ⟨hc, hcase, hst⟩, rfl⟩, rfl⟩

/-- A label appears in the full listing iff some row of the case carries
that label. -/
theorem mem_names_all (s : List Card) (case n : String) :
    n ∈ (get_cards_by_case s case).map AllRow.card_number ↔
      ∃ c ∈ s, c.case_number = case ∧ c.card_number = n := by
  simp only [get_cards_by_case, List.mem_map, List.mem_mergeSort,
    List.mem_filter, decide_eq_true_eq]
  constructor
  · rintro ⟨r, ⟨c, ⟨hc, hcase⟩, rfl⟩, rfl⟩
    exact ⟨c, hc, hcase, rfl⟩
  · rintro ⟨c, hc, hcase, rfl⟩
    exact ⟨_, ⟨c, ⟨hc, hcase⟩, rfl⟩, rfl⟩

/-- The row projected from any checked-out card of the case appears in the
checked-out listing. -/
theorem checked_out_row_mem (s : List Card) (c : Card) (hc : c ∈ s)
    (hst : c.status = statusCheckedOut) :
    ({ id := c.id, card_number := c.card_number, capacity := c.capacity,
       user_name := c.user_name, equipment := c.equipment,
       shoot_content := c.shoot_content, checkout_date := c.checkout_date } :
      CheckedOutRow) ∈ get_checked_out_cards_by_case s c.case_number := by
  simp only [get_checked_out_cards_by_case, List.mem_map, List.mem_mergeSort,
    List.mem_filter, decide_eq_true_eq]
  exact ⟨c, ⟨hc, rfl, hst⟩, rfl⟩

/-! ### Locating the targeted row -/

/-- In a table with distinct ids, the rows matching `WHERE id IN (one id)`
are exactly the one card. -/
theorem filter_contains_singleton (s : List Card) (his : IdsNodup s) (c : Card)
    (hc : c ∈ s) : s.filter (fun d => [c.id].contains d.id) = [c] := by
  induction s with
  | nil => cases hc
  | cons x t ih =>
    have his2 : (x.id :: t.map Card.id).Nodup := his
    rw [List.nodup_cons] at his2
    obtain ⟨hx, ht⟩ := his2
    rcases List.mem_cons.mp hc with rfl | hct
    · rw [List.filter_cons_of_pos (by simp)]
      have hnil : t.filter (fun d => [c.id].contains d.id) = [] := by
        rw [List.filter_eq_nil_iff]
        intro d hd
        simp only [List.contains_cons, List.contains_nil, Bool.or_false, beq_iff_eq]
        intro hdc
        exact hx (hdc ▸ List.mem_map_of_mem Card.id hd)
      rw [hnil]
    · have hxc : x.id ≠ c.id := by
        intro hxe
        apply hx
        have hmm : c.id ∈ t.map Card.id := List.mem_map_of_mem Card.id hct
        rwa [← hxe] at hmm
      rw [List.filter_cons_of_neg (by simp [hxc]), ih ht hct]

/-- `find?` after an id-targeted row update, in a table with distinct ids,
returns exactly the updated row. -/
theorem find?_update (g : Card → Card) (hg : ∀ d, (g d).id = d.id) (tid : Nat)
    (s : List Card) (his : IdsNodup s) (c : Card) (hc : c ∈ s)
    (hid : c.id = tid) :
    (s.map (fun d => if d.id = tid then g d else d)).find?
      (fun d => d.id = tid) = some (g c) := by
  induction s with
  | nil => cases hc
  | cons x t ih =>
    have his2 : (x.id :: t.map Card.id).Nodup := his
    rw [List.nodup_cons] at his2
    obtain ⟨hx, ht⟩ := his2
    rw [List.map_cons]
    by_cases hxid : x.id = tid
    · have hcx : c = x := by
        rcases List.mem_cons.mp hc with rfl | hct
        · rfl
        · exfalso
          apply hx
          have hmm : c.id ∈ t.map Card.id := List.mem_map_of_mem Card.id hct
          rwa [hid, ← hxid] at hmm
      rw [if_pos hxid, List.find?_cons_of_pos _ (by simp [hg, hxid]), hcx]
    · have hct : c ∈ t := by
        rcases List.mem_cons.mp hc with rfl | hct
        · exact absurd hid hxid
        · exact hct
      rw [if_neg hxid, List.find?_cons_of_neg _ (by simp [hxid]), ih ht hct]

/-- Locating the checked-out row after `checkoutUpdate`. -/
theorem find?_checkoutUpdate (s : List Card) (his : IdsNodup s) (c : Card)
    (hc : c ∈ s) (now : Nat) (u e n : String) :
    (checkoutUpdate now u e n c.id s).find? (fun d => d.id = c.id) =
      some (checkoutStamp now u e n c) := by
  rw [checkoutUpdate]
  exact find?_update (checkoutStamp now u e n) (fun d => rfl) c.id s his c hc rfl

/-- Locating the cleared row after `returnUpdate`. -/
theorem find?_returnUpdate (s : List Card) (his : IdsNodup s) (c : Card)
    (hc : c ∈ s) (tid : Nat) (hid : c.id = tid) :
    (returnUpdate tid s).find? (fun d => d.id = tid) = some (returnClear c) := by
  rw [returnUpdate]
  exact find?_update returnClear (fun d => rfl) tid s his c hc hid

/-- A single-card checkout of an in-stock card (distinct ids) succeeds and
performs exactly the one-row update. -/
theorem checkout_single_ok (s : List Card) (c : Card) (his : IdsNodup s)
    (hc : c ∈ s) (hst : c.status = statusAvailable) (now : Nat) (u e n : String) :
    checkout_cards s [c.id] now u e n =
      (checkoutUpdate now u e n c.id s, true, "貸出が完了しました") := by
  have hsel : selectRows s [c.id] = [(c.id, c.status)] := by
    rw [selectRows, filter_contains_singleton s his c hc]
    rfl
  have hu : unavailable_cards (selectRows s [c.id]) = [] := by
    rw [hsel, unavailable_cards]
    simp [hst]
  rw [checkout_cards_ok s [c.id] now u e n (by simp) hu, List.foldl_cons,
    List.foldl_nil]

/-! ### Concrete demonstration stores -/

/-- A one-card store: id 1 in stock. -/
def soloStore : List Card := [seedRow 1 "A-1" 1 "32G" "ケースA"]

/-- A two-card store: id 1 in stock, id 2 checked out. -/
def demoStore : List Card :=
  [seedRow 1 "A-1" 1 "32G" "ケースA",
   checkoutStamp 7 "太郎" "カメラ" "取材" (seedRow 2 "A-2" 2 "64G" "ケースA")]

/-! ### Claims -/

/-- C10: calling `checkout_cards` with an empty batch builds the malformed
query `... WHERE id IN ()`, whose SQLite syntax error is caught by the
`except` arm: the store is unchanged, the result is a failure, and no card
is checked out. -/
theorem empty_batch_checkout_fails (s : List Card) (now : Nat) (u e n : String) :
    checkout_cards s [] now u e n =
      (s, false, "エラーが発生しました: " ++ emptyInListError) := rfl

/-- C9: `checkout_cards` and `return_card` always return a
`(state, success, message)` value (they are total functions of the model);
every failure result leaves the store unchanged, and any raised store
exception is converted at the `try/except` boundary into a rolled-back
state with the generic failure message — it never propagates. -/
theorem store_errors_contained (s : List Card) (ids : List Nat) (now : Nat)
    (u e n : String) (card_id : Nat) :
    ((checkout_cards s ids now u e n).2.1 = false →
      (checkout_cards s ids now u e n).1 = s) ∧
    ((return_card s card_id).2.1 = false → (return_card s card_id).1 = s) ∧
    (∀ msg, checkoutBody s ids now u e n = .error msg →
      checkout_cards s ids now u e n =
        (s, false, "エラーが発生しました: " ++ msg)) ∧
    (∀ msg, returnBody s card_id = .error msg →
      return_card s card_id = (s, false, "エラーが発生しました: " ++ msg)) := by
  refine ⟨?_, ?_, ?_, ?_⟩
  · intro hfail
    by_cases hne : ids = []
    · subst hne
      rfl
    · by_cases hu : unavailable_cards (selectRows s ids) = []
      · rw [checkout_cards_ok s ids now u e n hne hu] at hfail
        simp at hfail
      · rw [checkout_cards_unavail s ids now u e n hne hu]
  · intro hfail
    rcases hfind : s.find? (fun c => c.id = card_id) with _ | c0
    · simp [return_card, returnBody, hfind]
    · by_cases hst : c0.status = statusCheckedOut
      · rw [return_card_ok s card_id c0 hfind hst] at hfail
        simp at hfail
      · simp [return_card, returnBody, hfind, hst]
  · intro msg hmsg
    simp [checkout_cards, hmsg]
  · intro msg hmsg
    simp [return_card, hmsg]

/-- C9 witness: at the one-card store, a failing return (id 5 absent)
leaves the store unchanged. -/
theorem store_errors_contained_witness : (return_card soloStore 5).1 = soloStore :=
  (store_errors_contained soloStore [] 0 "u" "e" "n" 5).2.1 (by decide)

/-- C6: seeding an empty store produces exactly 120 rows — per container
(`'SDカード1'`, `'SDカード2'`, `'マイクロSDカード'`, the spec's containers
SD1, SD2 and microSD) 40 cards with indices 1..40, SD1 capacities by the
band rule 1-11→32G, 12-18→64G, 19-40→128G, SD2 all 64G, microSD all 32G,
every row in stock — and seeding the now non-empty store changes nothing. -/
theorem seed_deterministic_idempotent :
    (insert_initial_data []).length = 120 ∧
    ((insert_initial_data []).filter (fun c => c.case_number = "SDカード1")).map
        (fun c => (c.card_index, c.capacity)) =
      (List.range' 1 40).map
        (fun i => (i, if i ≤ 11 then "32G" else if i ≤ 18 then "64G" else "128G")) ∧
    ((insert_initial_data []).filter (fun c => c.case_number = "SDカード2")).map
        (fun c => (c.card_index, c.capacity)) =
      (List.range' 1 40).map (fun i => (i, "64G")) ∧
    ((insert_initial_data []).filter (fun c => c.case_number = "マイクロSDカード")).map
        (fun c => (c.card_index, c.capacity)) =
      (List.range' 1 40).map (fun i => (i, "32G")) ∧
    (∀ c ∈ insert_initial_data [], c.status = statusAvailable) ∧
    insert_initial_data (insert_initial_data []) = insert_initial_data [] := by
  decide

/-- C1: when some id of the batch refers to an existing checked-out card,
`checkout_cards` leaves the store untouched, fails, and its message lists
the unavailable ids — every requested id held by a row that is not in
stock appears in the reported list. -/
theorem checkout_unavailable_aborts (s : List Card) (ids : List Nat)
    (now : Nat) (u e n : String)
    (h : ∃ i ∈ ids, ∃ c ∈ s, c.id = i ∧ c.status = statusCheckedOut) :
    checkout_cards s ids now u e n =
      (s, false, "以下のカードは現在貸出できません: " ++
        String.intercalate ", " (unavailable_cards (selectRows s ids))) ∧
    (∀ i ∈ ids, ∀ c ∈ s, c.id = i → c.status ≠ statusAvailable →
      toString i ∈ unavailable_cards (selectRows s ids)) := by
  have hnames : ∀ i ∈ ids, ∀ c ∈ s, c.id = i → c.status ≠ statusAvailable →
      toString i ∈ unavailable_cards (selectRows s ids) := by
    intro i hi c hc hcid hcst
    rw [unavailable_cards, selectRows]
    apply List.mem_map.mpr
    refine ⟨(c.id, c.status), List.mem_filter.mpr ⟨?_, by simpa using hcst⟩,
      by simp [hcid]⟩
    apply List.mem_map.mpr
    refine ⟨c, List.mem_filter.mpr ⟨hc, ?_⟩, rfl⟩
    rw [hcid]
    simpa using hi
  obtain ⟨i, hi, c, hc, hcid, hcst⟩ := h
  have hne : ids ≠ [] := by
    rintro rfl
    cases hi
  have hmem := hnames i hi c hc hcid (by rw [hcst]; decide)
  have hu : unavailable_cards (selectRows s ids) ≠ [] := by
    intro h0
    rw [h0] at hmem
    cases hmem
  exact ⟨checkout_cards_unavail s ids now u e n hne hu, hnames⟩

/-- C1 witness: at the two-card store, requesting ids 1 (in stock) and 2
(checked out) mutates nothing and names id 2. -/
theorem checkout_unavailable_aborts_witness :
    checkout_cards demoStore [1, 2] 0 "u" "e" "n" =
      (demoStore, false, "以下のカードは現在貸出できません: 2") := by
  have h := (checkout_unavailable_aborts demoStore [1, 2] 0 "u" "e" "n"
    (by decide)).1
  rw [h]
  rfl

/-- C2 counterexample: against a store holding only id 1 (in stock), the
batch [1, 2] contains id 2 with no card record; the claimed abort does not
happen — checkout reports success and mutates the store. -/
theorem checkout_missing_id_counterexample :
    (checkout_cards soloStore [1, 2] 0 "u" "e" "n").2.1 = true ∧
    (checkout_cards soloStore [1, 2] 0 "u" "e" "n").1 ≠ soloStore := by
  decide

/-- C2 amended: ids with no card record are silently ignored: when the
batch is nonempty and every batch id that does refer to a row refers to an
in-stock row, checkout succeeds; no row is created or removed (the id
column is unchanged), and rows outside the batch are untouched. -/
theorem checkout_ignores_missing_ids (s : List Card) (ids : List Nat)
    (now : Nat) (u e n : String) (hne : ids ≠ [])
    (hok : ∀ i ∈ ids, ∀ c ∈ s, c.id = i → c.status = statusAvailable) :
    (checkout_cards s ids now u e n).2.1 = true ∧
    (checkout_cards s ids now u e n).1.map Card.id = s.map Card.id ∧
    (∀ c ∈ s, c.id ∉ ids → c ∈ (checkout_cards s ids now u e n).1) := by
  have hu : unavailable_cards (selectRows s ids) = [] := by
    rw [unavailable_cards]
    have hnil : (selectRows s ids).filter (fun p => decide (p.2 ≠ statusAvailable)) = [] := by
      rw [List.filter_eq_nil_iff]
      rintro ⟨pid, pst⟩ hp
      rw [selectRows] at hp
      obtain ⟨c, hcf, hceq⟩ := List.mem_map.mp hp
      obtain ⟨hcs, hcin⟩ := List.mem_filter.mp hcf
      cases hceq
      have hcid : c.id ∈ ids := by simpa using hcin
      have := hok c.id hcid c hcs rfl
      simp [this]
    rw [hnil]
    rfl
  have hco := checkout_cards_ok s ids now u e n hne hu
  refine ⟨by rw [hco], ?_, ?_⟩
  · exact map_checkout_fst Card.id now u e n (fun c => rfl) ids s
  · intro c hc hni
    rw [hco]
    exact mem_checkout_foldl_untouched ids now u e n s c hc hni

/-- C2 amended witness: the one-card store with batch [1, 2]. -/
theorem checkout_ignores_missing_ids_witness :
    (checkout_cards soloStore [1, 2] 0 "u" "e" "n").2.1 = true ∧
    (checkout_cards soloStore [1, 2] 0 "u" "e" "n").1.map Card.id =
      soloStore.map Card.id ∧
    (∀ c ∈ soloStore, c.id ∉ [1, 2] →
      c ∈ (checkout_cards soloStore [1, 2] 0 "u" "e" "n").1) :=
  checkout_ignores_missing_ids soloStore [1, 2] 0 "u" "e" "n" (by decide)
    (by decide)

/-- C3: with distinct ids (id is the PRIMARY KEY), `return_card` succeeds
exactly when the id refers to an existing checked-out row; on success it
performs the one-row clear — the row is back in stock with all four
checkout-scoped columns NULL — and a second return of the same id fails
leaving the store unchanged; on failure the store is unchanged. -/
theorem return_card_spec (s : List Card) (card_id : Nat) (his : IdsNodup s) :
    ((return_card s card_id).2.1 = true ↔
      ∃ c ∈ s, c.id = card_id ∧ c.status = statusCheckedOut) ∧
    ((return_card s card_id).2.1 = true →
      (return_card s card_id).1 = returnUpdate card_id s ∧
      (∀ d ∈ (return_card s card_id).1, d.id = card_id →
        d.status = statusAvailable ∧ d.checkout_date = none ∧
        d.user_name = none ∧ d.equipment = none ∧ d.shoot_content = none) ∧
      return_card (return_card s card_id).1 card_id =
        ((return_card s card_id).1, false, "このカードは返却できません")) ∧
    ((return_card s card_id).2.1 = false →
      return_card s card_id = (s, false, "このカードは返却できません")) := by
  have hclear : ∀ d ∈ returnUpdate card_id s, d.id = card_id →
      d.status = statusAvailable ∧ d.checkout_date = none ∧
      d.user_name = none ∧ d.equipment = none ∧ d.shoot_content = none := by
    intro d hd hdid
    rw [returnUpdate] at hd
    obtain ⟨d0, hd0, hdeq⟩ := List.mem_map.mp hd
    by_cases h0 : d0.id = card_id
    · rw [if_pos h0] at hdeq
      rw [← hdeq]
      simp [returnClear]
    · rw [if_neg h0] at hdeq
      rw [← hdeq] at hdid
      exact absurd hdid h0
  have hsecond : return_card (returnUpdate card_id s) card_id =
      (returnUpdate card_id s, false, "このカードは返却できません") := by
    apply return_card_fail
    intro d hd hdid
    rw [(hclear d hd hdid).1]
    decide
  rcases hfind : s.find? (fun c => c.id = card_id) with _ | c0
  · have hres : return_card s card_id = (s, false, "このカードは返却できません") := by
      simp [return_card, returnBody, hfind]
    refine ⟨?_, ?_, fun _ => hres⟩
    · rw [hres]
      constructor
      · intro h
        exact Bool.noConfusion h
      · rintro ⟨c, hc, hcid, -⟩
        exact absurd (by simp [hcid] : (fun c => decide (c.id = card_id)) c = true)
          (List.find?_eq_none.mp hfind c hc)
    · rw [hres]
      intro h
      exact Bool.noConfusion h
  · have hc0 := List.mem_of_find?_eq_some hfind
    have hc0id : c0.id = card_id := by simpa using List.find?_some hfind
    by_cases hst : c0.status = statusCheckedOut
    · have hres := return_card_ok s card_id c0 hfind hst
      refine ⟨?_, ?_, ?_⟩
      · rw [hres]
        exact iff_of_true rfl ⟨c0, hc0, hc0id, hst⟩
      · intro _h
        rw [hres]
        exact ⟨rfl, hclear, hsecond⟩
      · rw [hres]
        intro h
        exact Bool.noConfusion h
    · have hres : return_card s card_id = (s, false, "このカードは返却できません") := by
        simp [return_card, returnBody, hfind, hst]
      refine ⟨?_, ?_, fun _ => hres⟩
      · rw [hres]
        constructor
        · intro h
          exact Bool.noConfusion h
        · rintro ⟨c, hc, hcid, hcst⟩
          have hcc0 : c = c0 :=
            List.inj_on_of_nodup_map his hc hc0 (by rw [hcid, hc0id])
          rw [hcc0] at hcst
          exact absurd hcst hst
      · rw [hres]
        intro h
        exact Bool.noConfusion h

/-- C3 witness: returning the checked-out card id 2 of the two-card store
succeeds. -/
theorem return_card_spec_witness : (return_card demoStore 2).2.1 = true :=
  (return_card_spec demoStore 2
    (by decide : (demoStore.map Card.id).Nodup)).1.mpr (by decide)

/-- C4: checking out an in-stock card of a table with distinct ids and
labels makes it appear in the checked-out listing of its case with exactly
the given borrower, equipment and note and a non-NULL checkout timestamp,
and disappear from the available listing of that case. -/
theorem checkout_then_list_roundtrip (s : List Card) (c : Card) (now : Nat)
    (b e n : String) (his : IdsNodup s) (hns : NamesNodup s) (hc : c ∈ s)
    (hst : c.status = statusAvailable) :
    (checkout_cards s [c.id] now b e n).2.1 = true ∧
    ({ id := c.id, card_number := c.card_number, capacity := c.capacity,
       user_name := some b, equipment := some e, shoot_content := some n,
       checkout_date := some now } : CheckedOutRow) ∈
      get_checked_out_cards_by_case (checkout_cards s [c.id] now b e n).1
        c.case_number ∧
    c.card_number ∉
      (get_available_cards_by_case (checkout_cards s [c.id] now b e n).1
        c.case_number).map AvailRow.card_number := by
  have hco := checkout_single_ok s c his hc hst now b e n
  have h1 : (checkout_cards s [c.id] now b e n).1 =
      checkoutUpdate now b e n c.id s := by
    rw [hco]
  refine ⟨by rw [hco], ?_, ?_⟩
  · rw [h1]
    have hmem : checkoutStamp now b e n c ∈ checkoutUpdate now b e n c.id s := by
      rw [checkoutUpdate]
      exact List.mem_map.mpr ⟨c, hc, if_pos rfl⟩
    exact checked_out_row_mem (checkoutUpdate now b e n c.id s)
      (checkoutStamp now b e n c) hmem rfl
  · rw [h1, mem_names_available]
    rintro ⟨d, hd, hdcase, hdst, hdname⟩
    rw [checkoutUpdate] at hd
    obtain ⟨d0, hd0, hdeq⟩ := List.mem_map.mp hd
    by_cases h0 : d0.id = c.id
    · rw [if_pos h0] at hdeq
      rw [← hdeq] at hdst
      simp [checkoutStamp, statusCheckedOut, statusAvailable] at hdst
    · rw [if_neg h0] at hdeq
      rw [← hdeq] at hdname
      have hd0c : d0 = c := List.inj_on_of_nodup_map hns hd0 hc hdname
      rw [hd0c] at h0
      exact h0 rfl

/-- C4 witness: card "A-1" of the two-card store, checked out to Alice with
CamA and note Interview at time 5. -/
theorem checkout_then_list_roundtrip_witness :
    (checkout_cards demoStore [1] 5 "Alice" "CamA" "Interview").2.1 = true ∧
    ({ id := 1, card_number := "A-1", capacity := "32G",
       user_name := some "Alice", equipment := some "CamA",
       shoot_content := some "Interview", checkout_date := some 5 } :
      CheckedOutRow) ∈
      get_checked_out_cards_by_case
        (checkout_cards demoStore [1] 5 "Alice" "CamA" "Interview").1
        "ケースA" ∧
    "A-1" ∉
      (get_available_cards_by_case
        (checkout_cards demoStore [1] 5 "Alice" "CamA" "Interview").1
        "ケースA").map AvailRow.card_number :=
  checkout_then_list_roundtrip demoStore (seedRow 1 "A-1" 1 "32G" "ケースA") 5
    "Alice" "CamA" "Interview" (by decide : (demoStore.map Card.id).Nodup)
    (by decide : (demoStore.map Card.card_number).Nodup) (by decide) rfl

/-- C5: in every reachable store state, a label appears in the full listing
of a case iff it appears in exactly one of the available and checked-out
listings of that case — the two listings partition the full listing by
status. -/
theorem listing_partition (s : List Card) (hs : Reachable s)
    (case n : String) :
    (n ∈ (get_cards_by_case s case).map AllRow.card_number ↔
      (n ∈ (get_available_cards_by_case s case).map AvailRow.card_number ∨
       n ∈ (get_checked_out_cards_by_case s case).map
         CheckedOutRow.card_number)) ∧
    ¬(n ∈ (get_available_cards_by_case s case).map AvailRow.card_number ∧
      n ∈ (get_checked_out_cards_by_case s case).map
        CheckedOutRow.card_number) := by
  obtain ⟨hstat, -, hnames, -⟩ := reachable_invariants s hs
  constructor
  · rw [mem_names_all, mem_names_available, mem_names_checked_out]
    constructor
    · rintro ⟨c, hc, hcase, rfl⟩
      rcases hstat c hc with h | h
      · exact Or.inl ⟨c, hc, hcase, h, rfl⟩
      · exact Or.inr ⟨c, hc, hcase, h, rfl⟩
    · rintro (⟨c, hc, hcase, -, rfl⟩ | ⟨c, hc, hcase, -, rfl⟩) <;>
        exact ⟨c, hc, hcase, rfl⟩
  · rw [mem_names_available, mem_names_checked_out]
    rintro ⟨⟨c1, hc1, -, hst1, rfl⟩, ⟨c2, hc2, -, hst2, hname⟩⟩
    have hcc : c2 = c1 := List.inj_on_of_nodup_map hnames hc2 hc1 hname
    rw [hcc, hst1] at hst2
    exact absurd hst2 (by decide)

/-- C5 witness: the seeded store, case `'SDカード1'`, label "SD1-1". -/
theorem listing_partition_witness :
    ("SD1-1" ∈ (get_cards_by_case (insert_initial_data []) "SDカード1").map
        AllRow.card_number ↔
      ("SD1-1" ∈ (get_available_cards_by_case (insert_initial_data [])
          "SDカード1").map AvailRow.card_number ∨
       "SD1-1" ∈ (get_checked_out_cards_by_case (insert_initial_data [])
          "SDカード1").map CheckedOutRow.card_number)) ∧
    ¬("SD1-1" ∈ (get_available_cards_by_case (insert_initial_data [])
          "SDカード1").map AvailRow.card_number ∧
      "SD1-1" ∈ (get_checked_out_cards_by_case (insert_initial_data [])
          "SDカード1").map CheckedOutRow.card_number) :=
  listing_partition (insert_initial_data []) Reachable.seeded "SDカード1" "SD1-1"

/-- C7: in every store state reachable by `checkout_cards` (whose borrower,
equipment and note arguments are strings, hence stored non-NULL) and
`return_card`, a card's four checkout-scoped columns are all non-NULL iff
its status is `'貸出中'`. -/
theorem checkout_fields_iff_status (s : List Card) (hs : Reachable s)
    (c : Card) (hc : c ∈ s) :
    (c.checkout_date ≠ none ∧ c.user_name ≠ none ∧ c.equipment ≠ none ∧
      c.shoot_content ≠ none) ↔ c.status = statusCheckedOut :=
  (reachable_invariants s hs).2.1 c hc

/-- C7 witness: the first seeded card. -/
theorem checkout_fields_iff_status_witness :
    ((seedRow 1 "SD1-1" 1 "32G" "SDカード1").checkout_date ≠ none ∧
      (seedRow 1 "SD1-1" 1 "32G" "SDカード1").user_name ≠ none ∧
      (seedRow 1 "SD1-1" 1 "32G" "SDカード1").equipment ≠ none ∧
      (seedRow 1 "SD1-1" 1 "32G" "SDカード1").shoot_content ≠ none) ↔
      (seedRow 1 "SD1-1" 1 "32G" "SDカード1").status = statusCheckedOut :=
  checkout_fields_iff_status (insert_initial_data []) Reachable.seeded
    (seedRow 1 "SD1-1" 1 "32G" "SDカード1") (by decide)

/-- C8: a successful checkout of an in-stock card followed by its return
keeps id, label, index, capacity and container unchanged at both stages;
after the checkout the row carries the stamped fields, and after the return
it is back in stock with all checkout-scoped columns NULL. -/
theorem lifecycle_frame (s : List Card) (c : Card) (now : Nat)
    (b e n : String) (his : IdsNodup s) (hc : c ∈ s)
    (hst : c.status = statusAvailable) :
    (checkout_cards s [c.id] now b e n).2.1 = true ∧
    (checkout_cards s [c.id] now b e n).1.find? (fun d => d.id = c.id) =
      some
        { c with
          status := statusCheckedOut, checkout_date := some now,
          user_name := some b, equipment := some e,
          shoot_content := some n } ∧
    (return_card (checkout_cards s [c.id] now b e n).1 c.id).2.1 = true ∧
    (return_card (checkout_cards s [c.id] now b e n).1 c.id).1.find?
        (fun d => d.id = c.id) =
      some
        { c with
          status := statusAvailable, checkout_date := none,
          user_name := none, equipment := none,
          shoot_content := none } := by
  have hco := checkout_single_ok s c his hc hst now b e n
  have h1 : (checkout_cards s [c.id] now b e n).1 =
      checkoutUpdate now b e n c.id s := by
    rw [hco]
  have hfind1 := find?_checkoutUpdate s his c hc now b e n
  have his1 : IdsNodup (checkoutUpdate now b e n c.id s) := by
    show ((checkoutUpdate now b e n c.id s).map Card.id).Nodup
    rw [map_checkoutUpdate Card.id now b e n (fun d => rfl) c.id s]
    exact his
  have hret := return_card_ok (checkoutUpdate now b e n c.id s) c.id
    (checkoutStamp now b e n c) hfind1 rfl
  have hmem1 : checkoutStamp now b e n c ∈ checkoutUpdate now b e n c.id s := by
    rw [checkoutUpdate]
    exact List.mem_map.mpr ⟨c, hc, if_pos rfl⟩
  have hfind2 := find?_returnUpdate (checkoutUpdate now b e n c.id s) his1
    (checkoutStamp now b e n c) hmem1 c.id rfl
  refine ⟨by rw [hco], ?_, ?_, ?_⟩
  · rw [h1]
    exact hfind1
  · rw [h1, hret]
  · rw [h1, hret]
    exact hfind2

/-- C8 witness: the full lifecycle of card "A-1" of the two-card store
restores exactly the original row. -/
theorem lifecycle_frame_witness :
    (return_card
        (checkout_cards demoStore [1] 5 "Alice" "CamA" "Interview").1 1).1.find?
      (fun d => d.id = 1) = some (seedRow 1 "A-1" 1 "32G" "ケースA") :=
  (lifecycle_frame demoStore (seedRow 1 "A-1" 1 "32G" "ケースA") 5
    "Alice" "CamA" "Interview" (by decide : (demoStore.map Card.id).Nodup)
    (by decide) rfl).2.2.2

end SDCard
